import Mathlib

/-!
Verification development for the cryptctl2 repository (SUSE/cryptctl2).

This file gives a shallow embedding of the parts of the program that the
claims concern:

* the key record data model (`Record`, from `keydb.Record` as used by the
  sources in this repository);
* `helper.Contains` and `helper.GetCertificatInfo` (src/helper/helper.go);
* the server-side command routines `AddAllowedClient` (the record
  transformation it performs on `AllowedClients`);
* the CLI dispatcher branches for `add-allowed-client` and
  `remove-allowed-client` (the flag-based dispatcher and the positional
  dispatcher in src/main.go);
* the client routines `UnlockFS`, `ManOnlineUnlockFS`, `AutoOnlineUnlockFS`,
  `ReportAlive` and `EraseKey` (package `routine`).

Effectful calls into the OS facade (`fs.CryptOpen`, `fs.Mount`, RPC calls,
...) are modelled by explicit environments recording, per call site, whether
the call succeeds; the sequence of performed external actions is returned as
a trace so that ordering claims can be stated.  Long-running loops are
modelled as fuel-indexed recursions: `none` means the loop is still running
after `fuel` iterations.
-/

/-- Projection of `keydb.Record` onto the fields used by the routines under
verification.  The field `AutoEncyption` keeps the source's spelling from
`routine.UnlockFS` (`rec.AutoEncyption`). -/
structure Record where
  UUID : String
  Key : String
  MappedName : String
  MountPoint : String
  MountOptions : List String
  MaxActive : Nat
  AllowedClients : List String
  AutoEncyption : Bool
deriving Repr, DecidableEq

/-- `helper.Contains` (src/helper/helper.go): linear scan with early return. -/
def Contains : List String → String → Bool
  | [], _ => false
  | s :: rest, b => if s = b then true else Contains rest b

/-- `command.AddAllowedClient`: the transformation applied to the record's
`AllowedClients` list.  If the client is not yet contained it is appended and
the record is persisted via `UpdateRecord`; otherwise the record is left
unchanged ("Nothing to do. Client already contained").  Database open and
persistence are outside the record transformation and are not modelled. -/
def AddAllowedClient (rec : Record) (newClient : String) : Record :=
  if Contains rec.AllowedClients newClient = false then
    { rec with AllowedClients := rec.AllowedClients ++ [newClient] }
  else
    rec

/-- `command.DeleteAllowedClient`: removes every occurrence of the client
from `AllowedClients` when it is contained (filter loop in the source). -/
def DeleteAllowedClient (rec : Record) (client : String) : Record :=
  if Contains rec.AllowedClients client = true then
    { rec with AllowedClients := rec.AllowedClients.filter (fun s => s ≠ client) }
  else
    rec

theorem contains_iff_mem (l : List String) (b : String) :
    Contains l b = true ↔ b ∈ l := by
  induction l with
  | nil => simp [Contains]
  | cons s rest ih =>
    by_cases h : s = b
    · subst h; simp [Contains]
    · simp [Contains, h, ih, Ne.symm h]

theorem addAllowedClient_of_contains (r : Record) (c : String)
    (h : Contains r.AllowedClients c = true) : AddAllowedClient r c = r := by
  simp [AddAllowedClient, h]

/-- C9: `AddAllowedClient` is idempotent.  The hypothesis `h` reflects the
data model (spec §3: `AllowedClients` is a *set* of client identities), under
which `c` occurs at most once in any valid record.  Conclusion: after two
calls `c` is contained exactly once, and the second call leaves the record
unchanged (the unchanged part holds for arbitrary records). -/
theorem addAllowedClient_idempotent (u : Record) (c : String)
    (h : u.AllowedClients.count c ≤ 1) :
    (AddAllowedClient (AddAllowedClient u c) c).AllowedClients.count c = 1
    ∧ AddAllowedClient (AddAllowedClient u c) c = AddAllowedClient u c := by
  by_cases hc : Contains u.AllowedClients c = true
  · have hmem : c ∈ u.AllowedClients := (contains_iff_mem _ _).mp hc
    have hone : u.AllowedClients.count c = 1 := by
      have := List.count_pos_iff.mpr hmem
      omega
    have hfix : AddAllowedClient u c = u := addAllowedClient_of_contains u c hc
    rw [hfix, hfix]
    exact ⟨hone, rfl⟩
  · have hnotmem : c ∉ u.AllowedClients := by
      intro hmem
      exact hc ((contains_iff_mem _ _).mpr hmem)
    have hzero : u.AllowedClients.count c = 0 :=
      List.count_eq_zero.mpr hnotmem
    have hfirst : AddAllowedClient u c =
        { u with AllowedClients := u.AllowedClients ++ [c] } := by
      simp only [AddAllowedClient]
      rw [if_pos (by simp [hc])]
    have hmem2 : c ∈ (AddAllowedClient u c).AllowedClients := by
      rw [hfirst]; simp
    have hc2 : Contains (AddAllowedClient u c).AllowedClients c = true :=
      (contains_iff_mem _ _).mpr hmem2
    have hsecond : AddAllowedClient (AddAllowedClient u c) c = AddAllowedClient u c :=
      addAllowedClient_of_contains _ _ hc2
    refine ⟨?_, hsecond⟩
    rw [hsecond, hfirst]
    simp [List.count_append, hzero]

/-- Witness for C9 at a concrete record. -/
theorem addAllowedClient_idempotent_witness :
    (AddAllowedClient (AddAllowedClient
      { UUID := "u1", Key := "k", MappedName := "m", MountPoint := "",
        MountOptions := [], MaxActive := 0, AllowedClients := ["h0"],
        AutoEncyption := false } "h1") "h1").AllowedClients.count "h1" = 1 :=
  (addAllowedClient_idempotent
    { UUID := "u1", Key := "k", MappedName := "m", MountPoint := "",
      MountOptions := [], MaxActive := 0, AllowedClients := ["h0"],
      AutoEncyption := false } "h1" (by decide)).1

/-- A peer certificate, reduced to the fields `helper.GetCertificatInfo`
reads: the DNS subject alternative names and the IP subject alternative
names (the latter already rendered as strings, as by `net.IP.String()`). -/
structure PeerCert where
  DNSNames : List String
  IPAddresses : List String
deriving Repr, DecidableEq

/-- Loop body of `helper.GetCertificatInfo`: for one certificate of
`state.PeerCertificates`, overwrite the accumulated `DNSName` with the
certificate's first DNS SAN when it has one, and likewise for the first
IP SAN. -/
def certInfoStep (acc : String × String) (cert : PeerCert) : String × String :=
  (if cert.DNSNames ≠ [] then cert.DNSNames.headD "" else acc.1,
   if cert.IPAddresses ≠ [] then cert.IPAddresses.headD "" else acc.2)

/-- `helper.GetCertificatInfo` (src/helper/helper.go): iterates over *all*
certificates of the connection state (leaf first, in Go's
`ConnectionState().PeerCertificates` order), folding `certInfoStep`; the
named return values start out as empty strings. -/
def GetCertificatInfo (peerCertificates : List PeerCert) : String × String :=
  peerCertificates.foldl certInfoStep ("", "")

/-- The first DNS SAN of the *last* certificate in the chain that has any
DNS SAN; empty string when no certificate has one. -/
def lastDNSSanSpec (chain : List PeerCert) : String :=
  (((chain.map PeerCert.DNSNames).filter (fun l => l ≠ [])).getLastD []).headD ""

/-- The first IP SAN of the *last* certificate in the chain that has any
IP SAN; empty string when no certificate has one. -/
def lastIPSanSpec (chain : List PeerCert) : String :=
  (((chain.map PeerCert.IPAddresses).filter (fun l => l ≠ [])).getLastD []).headD ""

/-- Accumulator view of the fold: the first element of the last non-empty
list, or the accumulated default when every list is empty. -/
def lastNonEmptyHeadD : List (List String) → String → String
  | [], d => d
  | l :: rest, d => lastNonEmptyHeadD rest (if l ≠ [] then l.headD "" else d)

theorem certInfo_foldl_fst (chain : List PeerCert) (d i : String) :
    (chain.foldl certInfoStep (d, i)).1 =
      lastNonEmptyHeadD (chain.map PeerCert.DNSNames) d := by
  induction chain generalizing d i with
  | nil => simp [lastNonEmptyHeadD]
  | cons c rest ih =>
    simp only [List.foldl_cons, List.map_cons, lastNonEmptyHeadD, certInfoStep]
    exact ih _ _

theorem certInfo_foldl_snd (chain : List PeerCert) (d i : String) :
    (chain.foldl certInfoStep (d, i)).2 =
      lastNonEmptyHeadD (chain.map PeerCert.IPAddresses) i := by
  induction chain generalizing d i with
  | nil => simp [lastNonEmptyHeadD]
  | cons c rest ih =>
    simp only [List.foldl_cons, List.map_cons, lastNonEmptyHeadD, certInfoStep]
    exact ih _ _

theorem lastNonEmptyHeadD_eq (L : List (List String)) (d : String) :
    lastNonEmptyHeadD L d =
      if (L.filter (fun l => l ≠ [])) = [] then d
      else ((L.filter (fun l => l ≠ [])).getLastD []).headD "" := by
  induction L generalizing d with
  | nil => simp [lastNonEmptyHeadD]
  | cons l rest ih =>
    by_cases hl : l = []
    · subst hl
      rw [show lastNonEmptyHeadD ([] :: rest) d = lastNonEmptyHeadD rest d by
            simp [lastNonEmptyHeadD],
          show (([] : List String) :: rest).filter (fun l => l ≠ []) =
              rest.filter (fun l => l ≠ []) by simp [List.filter_cons]]
      exact ih d
    · simp only [lastNonEmptyHeadD]
      rw [ih, List.filter_cons_of_pos (by simp [hl]), if_pos hl]
      by_cases hrest : (rest.filter (fun x => x ≠ [])) = []
      · rw [if_pos hrest, hrest, if_neg (by simp), List.getLastD_cons]
        simp [List.getLastD]
      · rw [if_neg hrest, if_neg (by simp), List.getLastD_cons]
        congr 1
        cases hfr : rest.filter (fun x : List String => x ≠ []) with
        | nil => exact absurd hfr hrest
        | cons a as =>
          rw [List.getLastD_eq_getLast?, List.getLastD_eq_getLast?,
            List.getLast?_eq_getLast (a :: as) (by simp)]
          rfl

/-- C8 counterexample: with a two-certificate chain whose leaf (first
element of `PeerCertificates`) carries DNS SAN "H1" and whose second,
non-leaf certificate carries DNS SAN "CA", `GetCertificatInfo` returns "CA",
not the leaf's first DNS SAN "H1" — so certificates other than the leaf do
influence the returned identity. -/
theorem getCertificatInfo_not_leaf_only :
    (GetCertificatInfo [⟨["H1"], []⟩, ⟨["CA"], []⟩]).1 = "CA"
    ∧ (PeerCert.DNSNames ⟨["H1"], []⟩).headD "" = "H1"
    ∧ ("CA" : String) ≠ "H1" := by
  refine ⟨rfl, rfl, by decide⟩

/-- C8 (amended): `GetCertificatInfo` returns the pair consisting of the
first DNS SAN of the **last** certificate in the chain that has any DNS SAN
and, independently, the first IP SAN of the **last** certificate that has
any IP SAN (empty strings when no certificate has the respective SAN kind);
only for a chain consisting of the leaf certificate alone does this
coincide with the leaf's first DNS SAN and first IP SAN. -/
theorem getCertificatInfo_last_sans (chain : List PeerCert) :
    GetCertificatInfo chain = (lastDNSSanSpec chain, lastIPSanSpec chain)
    ∧ ∀ c : PeerCert,
        GetCertificatInfo [c] = (c.DNSNames.headD "", c.IPAddresses.headD "") := by
  constructor
  · have h1 := certInfo_foldl_fst chain "" ""
    have h2 := certInfo_foldl_snd chain "" ""
    have e1 : lastNonEmptyHeadD (chain.map PeerCert.DNSNames) "" = lastDNSSanSpec chain := by
      rw [lastNonEmptyHeadD_eq, lastDNSSanSpec]
      split_ifs with h
      · rw [h]; rfl
      · rfl
    have e2 : lastNonEmptyHeadD (chain.map PeerCert.IPAddresses) "" = lastIPSanSpec chain := by
      rw [lastNonEmptyHeadD_eq, lastIPSanSpec]
      split_ifs with h
      · rw [h]; rfl
      · rfl
    rw [GetCertificatInfo, Prod.ext_iff]
    exact ⟨by rw [h1, e1], by rw [h2, e2]⟩
  · intro c
    rw [GetCertificatInfo, Prod.ext_iff]
    constructor
    · rw [certInfo_foldl_fst]
      cases hdn : c.DNSNames with
      | nil => simp [lastNonEmptyHeadD, hdn]
      | cons a as => simp [lastNonEmptyHeadD, hdn]
    · rw [certInfo_foldl_snd]
      cases hdn : c.IPAddresses with
      | nil => simp [lastNonEmptyHeadD, hdn]
      | cons a as => simp [lastNonEmptyHeadD, hdn]

/-- An invocation of a `command.*` routine performed by a CLI dispatcher
branch for the allowed-client actions. -/
inductive CliCall where
  | addAllowedClient (deviceID client : String)
  | deleteAllowedClient (deviceID client : String)
deriving Repr, DecidableEq

/-- The `add-allowed-client` case of the flag-based dispatcher (`main` of the
shipped CLI): when both `-deviceID` and `-allowedClients` are empty it exits
with a usage error (`none`); otherwise it splits `allowedClients` on `","`
(Go `strings.Split`) and calls `command.AddAllowedClient(deviceID, client)`
for each piece. -/
def addAllowedClientBranch (deviceID allowedClients : String) : Option (List CliCall) :=
  if deviceID = "" ∧ allowedClients = "" then none
  else some ((allowedClients.splitOn ",").map (fun client => CliCall.addAllowedClient deviceID client))

/-- The `remove-allowed-client` case of the flag-based dispatcher, translated
from its source text: same guard, and the loop body again calls
`command.AddAllowedClient(deviceID, client)`. -/
def removeAllowedClientBranch (deviceID allowedClients : String) : Option (List CliCall) :=
  if deviceID = "" ∧ allowedClients = "" then none
  else some ((allowedClients.splitOn ",").map (fun client => CliCall.addAllowedClient deviceID client))

/-- The `add-allowed-client` case of the positional-argument dispatcher
(src/main.go, `os.Args` based): exits with a usage error unless exactly the
two parameters `UUID AllowedClient` are present, then calls
`command.AddAllowedClient(os.Args[2], os.Args[3])` once. -/
def addAllowedClientArgsBranch (args : List String) : Option (List CliCall) :=
  if args.length = 4 then
    some [CliCall.addAllowedClient (args.getD 2 "") (args.getD 3 "")]
  else none

/-- The `remove-allowed-client` case of the positional-argument dispatcher
(src/main.go lines 131-137), translated from its source text: identical to
the add case, again invoking `command.AddAllowedClient`. -/
def removeAllowedClientArgsBranch (args : List String) : Option (List CliCall) :=
  if args.length = 4 then
    some [CliCall.addAllowedClient (args.getD 2 "") (args.getD 3 "")]
  else none

/-- Does a call invoke `command.DeleteAllowedClient`? -/
def isDeleteAllowedClientCall : CliCall → Bool
  | CliCall.deleteAllowedClient _ _ => true
  | CliCall.addAllowedClient _ _ => false

/-- C1: both dispatchers' `remove-allowed-client` branches are extensionally
equal to their `add-allowed-client` branches; for every deviceID and every
client in the comma-separated `allowedClients` argument the remove branch
invokes `command.AddAllowedClient`, and `command.DeleteAllowedClient` is
never invoked by it. -/
theorem removeAllowedClient_equals_add :
    removeAllowedClientBranch = addAllowedClientBranch
    ∧ removeAllowedClientArgsBranch = addAllowedClientArgsBranch
    ∧ (∀ deviceID allowedClients : String,
        removeAllowedClientBranch deviceID allowedClients =
          if deviceID = "" ∧ allowedClients = "" then none
          else some ((allowedClients.splitOn ",").map
            (fun client => CliCall.addAllowedClient deviceID client)))
    ∧ (∀ deviceID allowedClients : String,
        ((removeAllowedClientBranch deviceID allowedClients).getD []).all
          (fun call => !(isDeleteAllowedClientCall call)) = true)
    ∧ (∀ args : List String,
        ((removeAllowedClientArgsBranch args).getD []).all
          (fun call => !(isDeleteAllowedClientCall call)) = true) := by
  refine ⟨rfl, rfl, fun _ _ => rfl, ?_, ?_⟩
  · intro deviceID allowedClients
    rw [removeAllowedClientBranch]
    split_ifs
    · rfl
    · rw [Option.getD_some, List.all_eq_true]
      intro call hcall
      obtain ⟨c, _, rfl⟩ := List.mem_map.mp hcall
      rfl
  · intro args
    rw [removeAllowedClientArgsBranch]
    split_ifs
    · rfl
    · rfl

/-- Environment for `routine.EraseKey`: whether the block device with the
requested UUID is found, whether the corresponding unlocked device-mapper
device is found, whether that unlocked device is mounted
(`unlockedDev.MountPoint != ""`), and whether each external step succeeds. -/
structure EraseEnv where
  foundHost : Bool
  foundUnlocked : Bool
  unlockedMounted : Bool
  umountOk : Bool
  closeOk : Bool
  eraseOk : Bool
  serverOk : Bool
deriving Repr, DecidableEq

/-- External actions performed by `routine.EraseKey`, in the order they are
attempted: `fs.Umount`, `fs.CryptClose`, `fs.CryptErase`, and finally the
server RPC `client.EraseKey`. -/
inductive EraseAction where
  | umount
  | cryptClose
  | cryptErase
  | serverEraseKey
deriving Repr, DecidableEq

/-- Errors returned by `routine.EraseKey`, one per early-return site. -/
inductive EraseErr where
  | hostDevNotFound
  | umountFailed
  | closeFailed
  | eraseFailed
  | serverFailed
deriving Repr, DecidableEq

/-- Tail of `routine.EraseKey` after the optional umount/close phase:
`fs.CryptErase(hostDev.Path)` followed, only on success, by the server RPC
`client.EraseKey`.  `pre` is the trace accumulated so far. -/
def eraseFinishPhase (e : EraseEnv) (pre : List EraseAction) :
    List EraseAction × Option EraseErr :=
  if e.eraseOk = false then (pre ++ [EraseAction.cryptErase], some EraseErr.eraseFailed)
  else if e.serverOk = false then
    (pre ++ [EraseAction.cryptErase, EraseAction.serverEraseKey], some EraseErr.serverFailed)
  else (pre ++ [EraseAction.cryptErase, EraseAction.serverEraseKey], none)

/-- `routine.EraseKey` (client side), as trace plus result: find the host
device; if the unlocked device-mapper device exists, umount it when mounted
and `cryptsetup close` it; then `cryptsetup erase` the backing device; only
after all of that succeeded, call the server's `EraseKey` RPC.  Every failing
step returns its error immediately. -/
def EraseKey (e : EraseEnv) : List EraseAction × Option EraseErr :=
  if e.foundHost = false then ([], some EraseErr.hostDevNotFound)
  else if e.foundUnlocked then
    if e.unlockedMounted then
      if e.umountOk = false then ([EraseAction.umount], some EraseErr.umountFailed)
      else if e.closeOk = false then
        ([EraseAction.umount, EraseAction.cryptClose], some EraseErr.closeFailed)
      else eraseFinishPhase e [EraseAction.umount, EraseAction.cryptClose]
    else
      if e.closeOk = false then ([EraseAction.cryptClose], some EraseErr.closeFailed)
      else eraseFinishPhase e [EraseAction.cryptClose]
  else eraseFinishPhase e []

/-- C2: the steps of `EraseKey` happen in the order umount, close, erase,
server-RPC (the trace is a subsequence of that canonical order); the server
RPC appears in the trace only when every applicable local step succeeded,
and whenever a local step fails the function returns that step's error and
the server RPC is absent from the trace. -/
theorem eraseKey_local_before_server (e : EraseEnv) :
    List.Sublist (EraseKey e).1
      [EraseAction.umount, EraseAction.cryptClose, EraseAction.cryptErase,
       EraseAction.serverEraseKey]
    ∧ (EraseAction.serverEraseKey ∈ (EraseKey e).1 →
        e.foundHost = true ∧ e.eraseOk = true
        ∧ (e.foundUnlocked = true →
            e.closeOk = true ∧ (e.unlockedMounted = true → e.umountOk = true)))
    ∧ (e.foundHost = true → e.foundUnlocked = true → e.unlockedMounted = true →
        e.umountOk = false →
        EraseKey e = ([EraseAction.umount], some EraseErr.umountFailed))
    ∧ (e.foundHost = true → e.foundUnlocked = true → e.closeOk = false →
        (e.unlockedMounted = true → e.umountOk = true) →
        (EraseKey e).2 = some EraseErr.closeFailed
        ∧ EraseAction.serverEraseKey ∉ (EraseKey e).1)
    ∧ (e.foundHost = true → e.eraseOk = false →
        (e.foundUnlocked = true →
          e.closeOk = true ∧ (e.unlockedMounted = true → e.umountOk = true)) →
        (EraseKey e).2 = some EraseErr.eraseFailed
        ∧ EraseAction.serverEraseKey ∉ (EraseKey e).1) := by
  obtain ⟨fh, fu, um, uo, co, eo, so⟩ := e
  cases fh <;> cases fu <;> cases um <;> cases uo <;> cases co <;> cases eo <;> cases so <;>
    exact ⟨by decide, by decide, by decide, by decide, by decide⟩

/-- Witness for C2: with every lookup and step succeeding for a mounted
device, the server RPC is in the trace, so all local preconditions held. -/
theorem eraseKey_local_before_server_witness :
    (EraseEnv.foundHost ⟨true, true, true, true, true, true, true⟩ = true
      ∧ EraseEnv.eraseOk ⟨true, true, true, true, true, true, true⟩ = true
      ∧ (EraseEnv.foundUnlocked ⟨true, true, true, true, true, true, true⟩ = true →
          EraseEnv.closeOk ⟨true, true, true, true, true, true, true⟩ = true
          ∧ (EraseEnv.unlockedMounted ⟨true, true, true, true, true, true, true⟩ = true →
              EraseEnv.umountOk ⟨true, true, true, true, true, true, true⟩ = true))) :=
  (eraseKey_local_before_server ⟨true, true, true, true, true, true, true⟩).2.1 (by decide)

/-- Environment for `routine.UnlockFS`: device discovery and per-attempt
outcomes of the external calls (`fs.CryptOpen`, `os.MkdirAll`, `fs.Mount`),
indexed by the attempt counter `i` of the retry loop. -/
structure UnlockEnv where
  devFound : Bool
  devIsLUKS : Bool
  formatOk : Bool
  openOk : Nat → Bool
  mkdirOk : Nat → Bool
  mountOk : Nat → Bool

/-- External actions performed by `routine.UnlockFS`. -/
inductive UnlockAction where
  | cryptFormat (key : String)
  | cryptOpen (key : String)
  | mkdirAll (mountPoint : String)
  | mount (mountPoint : String)
deriving Repr, DecidableEq

/-- Errors returned by `routine.UnlockFS`, one per return site. -/
inductive UnlockErr where
  | devNotFound
  | formatFailed
  | notLuksNoAuto
  | processFailed
deriving Repr, DecidableEq

/-- One iteration of the retry loop body of `routine.UnlockFS`: always call
`fs.CryptOpen` (clearing `succeeded` on failure but continuing); when the
record has a mount point additionally `os.MkdirAll` and `fs.Mount`, clearing
`succeeded` on each failure.  The incoming value of `succeeded` is threaded
through exactly as in the source, which never resets it to `true`. -/
def unlockBody (e : UnlockEnv) (key mountPoint : String) (i : Nat) (succeeded : Bool) :
    List UnlockAction × Bool :=
  let s1 := if e.openOk i then succeeded else false
  if mountPoint = "" then ([UnlockAction.cryptOpen key], s1)
  else
    let s2 := if e.mkdirOk i then s1 else false
    let s3 := if e.mountOk i then s2 else false
    ([UnlockAction.cryptOpen key, UnlockAction.mkdirAll mountPoint,
      UnlockAction.mount mountPoint], s3)

/-- The retry loop of `routine.UnlockFS` (`for i := 0; i < maxAttempts; i++`):
run the body, break when `succeeded` is still true, otherwise sleep one
second and retry.  `remaining` counts the attempts left; the first component
is the concatenated action trace, the second the final `succeeded` flag. -/
def unlockLoop (e : UnlockEnv) (key mountPoint : String) :
    Nat → Nat → Bool → List UnlockAction × Bool
  | 0, _, succeeded => ([], succeeded)
  | remaining + 1, i, succeeded =>
    let body := unlockBody e key mountPoint i succeeded
    if body.2 then (body.1, true)
    else
      let rest := unlockLoop e key mountPoint remaining (i + 1) body.2
      (body.1 ++ rest.1, rest.2)

/-- `routine.UnlockFS`: find the device by UUID; if it is not LUKS-formatted,
LUKS-format it when `rec.AutoEncyption` is set (failing otherwise); then run
the retry loop with `succeeded` initialised to `true`, and report
`processFailed` when the loop ends without `succeeded`.  (The source also
computes a device-mapper name — discarding the result of
`MakeDeviceMapperName` when `rec.MappedName` is empty — which affects no
claim and is not modelled.) -/
def UnlockFS (e : UnlockEnv) (rec : Record) (maxAttempts : Nat) :
    List UnlockAction × Option UnlockErr :=
  if e.devFound = false then ([], some UnlockErr.devNotFound)
  else if e.devIsLUKS = false then
    if rec.AutoEncyption then
      if e.formatOk = false then
        ([UnlockAction.cryptFormat rec.Key], some UnlockErr.formatFailed)
      else
        let loopRes := unlockLoop e rec.Key rec.MountPoint maxAttempts 0 true
        (UnlockAction.cryptFormat rec.Key :: loopRes.1,
          if loopRes.2 then none else some UnlockErr.processFailed)
    else ([], some UnlockErr.notLuksNoAuto)
  else
    let loopRes := unlockLoop e rec.Key rec.MountPoint maxAttempts 0 true
    (loopRes.1, if loopRes.2 then none else some UnlockErr.processFailed)

theorem unlockBody_fst (e : UnlockEnv) (key mountPoint : String) (i : Nat) (s : Bool) :
    (unlockBody e key mountPoint i s).1 =
      if mountPoint = "" then [UnlockAction.cryptOpen key]
      else [UnlockAction.cryptOpen key, UnlockAction.mkdirAll mountPoint,
        UnlockAction.mount mountPoint] := by
  by_cases h : mountPoint = "" <;> simp [unlockBody, h]

theorem unlockLoop_head (e : UnlockEnv) (key mountPoint : String)
    (r i : Nat) (s : Bool) :
    (unlockLoop e key mountPoint (r + 1) i s).1.head? =
      some (UnlockAction.cryptOpen key) := by
  rw [unlockLoop]
  by_cases hb : (unlockBody e key mountPoint i s).2 = true
  · simp only [hb, if_true]
    rw [unlockBody_fst]
    by_cases h : mountPoint = "" <;> simp [h]
  · simp only [hb, if_neg, Bool.not_eq_true]
    rw [unlockBody_fst]
    by_cases h : mountPoint = "" <;> simp [h]

theorem unlockLoop_no_format (e : UnlockEnv) (key mountPoint : String) :
    ∀ (r i : Nat) (s : Bool) (k : String),
      UnlockAction.cryptFormat k ∉ (unlockLoop e key mountPoint r i s).1 := by
  intro r
  induction r with
  | zero => intro i s k; simp [unlockLoop]
  | succ r ih =>
    intro i s k
    rw [unlockLoop]
    by_cases hb : (unlockBody e key mountPoint i s).2 = true
    · simp only [hb, if_true]
      rw [unlockBody_fst]
      by_cases h : mountPoint = "" <;> simp [h]
    · rw [if_neg (by simp [hb])]
      simp only [List.mem_append, not_or]
      constructor
      · rw [unlockBody_fst]
        by_cases h : mountPoint = "" <;> simp [h]
      · exact ih (i + 1) _ k

/-- C5: the Discovered→Opened decision of `UnlockFS` for a found device:
if the device is LUKS-formatted, `cryptsetup open` with the record's key is
the first action and no format ever happens; otherwise, with
`rec.AutoEncyption` set, the device is first LUKS-formatted with the key and
then opened; otherwise the function fails with an error performing no
action at all. -/
theorem unlockFS_discovered_to_opened (e : UnlockEnv) (rec : Record) (n : Nat)
    (hf : e.devFound = true) :
    (e.devIsLUKS = true →
      (UnlockFS e rec (n + 1)).1.head? = some (UnlockAction.cryptOpen rec.Key)
      ∧ ∀ k, UnlockAction.cryptFormat k ∉ (UnlockFS e rec (n + 1)).1)
    ∧ (e.devIsLUKS = false → rec.AutoEncyption = true → e.formatOk = true →
      (UnlockFS e rec (n + 1)).1.head? = some (UnlockAction.cryptFormat rec.Key)
      ∧ (UnlockFS e rec (n + 1)).1.tail.head? = some (UnlockAction.cryptOpen rec.Key))
    ∧ (e.devIsLUKS = false → rec.AutoEncyption = true → e.formatOk = false →
      UnlockFS e rec (n + 1) =
        ([UnlockAction.cryptFormat rec.Key], some UnlockErr.formatFailed))
    ∧ (e.devIsLUKS = false → rec.AutoEncyption = false →
      UnlockFS e rec (n + 1) = ([], some UnlockErr.notLuksNoAuto)) := by
  refine ⟨?_, ?_, ?_, ?_⟩
  · intro hl
    have hfst : (UnlockFS e rec (n + 1)).1 =
        (unlockLoop e rec.Key rec.MountPoint (n + 1) 0 true).1 := by
      simp [UnlockFS, hf, hl]
    rw [hfst]
    exact ⟨unlockLoop_head _ _ _ _ _ _, fun k => unlockLoop_no_format _ _ _ _ _ _ k⟩
  · intro hl ha hfm
    have hfst : (UnlockFS e rec (n + 1)).1 =
        UnlockAction.cryptFormat rec.Key ::
          (unlockLoop e rec.Key rec.MountPoint (n + 1) 0 true).1 := by
      simp [UnlockFS, hf, hl, ha, hfm]
    rw [hfst]
    exact ⟨rfl, by rw [List.tail_cons]; exact unlockLoop_head _ _ _ _ _ _⟩
  · intro hl ha hfm
    simp [UnlockFS, hf, hl, ha, hfm]
  · intro hl ha
    simp [UnlockFS, hf, hl, ha]

/-- Witness for C5: the three Discovered→Opened branches at concrete
environments and records. -/
theorem unlockFS_discovered_to_opened_witness :
    (UnlockFS ⟨true, true, true, fun _ => true, fun _ => true, fun _ => true⟩
        ⟨"u", "k", "m", "/m", [], 0, [], false⟩ 1).1.head?
      = some (UnlockAction.cryptOpen "k")
    ∧ (UnlockFS ⟨true, false, true, fun _ => true, fun _ => true, fun _ => true⟩
        ⟨"u", "k", "m", "/m", [], 0, [], true⟩ 1).1.head?
      = some (UnlockAction.cryptFormat "k")
    ∧ UnlockFS ⟨true, false, true, fun _ => true, fun _ => true, fun _ => true⟩
        ⟨"u", "k", "m", "/m", [], 0, [], false⟩ 1
      = ([], some UnlockErr.notLuksNoAuto) :=
  ⟨((unlockFS_discovered_to_opened
      ⟨true, true, true, fun _ => true, fun _ => true, fun _ => true⟩
      ⟨"u", "k", "m", "/m", [], 0, [], false⟩ 0 rfl).1 rfl).1,
   ((unlockFS_discovered_to_opened
      ⟨true, false, true, fun _ => true, fun _ => true, fun _ => true⟩
      ⟨"u", "k", "m", "/m", [], 0, [], true⟩ 0 rfl).2.1 rfl rfl rfl).1,
   (unlockFS_discovered_to_opened
      ⟨true, false, true, fun _ => true, fun _ => true, fun _ => true⟩
      ⟨"u", "k", "m", "/m", [], 0, [], false⟩ 0 rfl).2.2.2 rfl rfl⟩

/-- Environment exhibiting the retry bug of `UnlockFS`: `fs.CryptOpen` fails
on attempt 0 and succeeds on every later attempt; mkdir and mount always
succeed. -/
def retryBugEnv : UnlockEnv :=
  { devFound := true, devIsLUKS := true, formatOk := true,
    openOk := fun i => decide (0 < i), mkdirOk := fun _ => true,
    mountOk := fun _ => true }

/-- Record used with `retryBugEnv` (no mount point, so an attempt consists
of the open transition only). -/
def retryBugRec : Record := ⟨"u6", "k6", "m6", "", [], 0, [], false⟩

/-- C6 (code bug): with `maxAttempts = 2`, attempt 0 fails and attempt 1
succeeds in every transition (the loop does re-run `cryptsetup open`, as the
trace shows, and the body would report success if `succeeded` were reset),
yet `UnlockFS` returns the `processFailed` error: the `succeeded` flag is
initialised once before the loop and never reset between attempts, so a
failure in an earlier attempt makes overall success impossible. -/
theorem unlockFS_retry_never_recovers :
    (UnlockFS retryBugEnv retryBugRec 2).2 = some UnlockErr.processFailed
    ∧ (UnlockFS retryBugEnv retryBugRec 2).1 =
        [UnlockAction.cryptOpen "k6", UnlockAction.cryptOpen "k6"]
    ∧ retryBugEnv.openOk 1 = true
    ∧ retryBugEnv.mkdirOk 1 = true
    ∧ retryBugEnv.mountOk 1 = true
    ∧ (unlockBody retryBugEnv "k6" "" 1 true).2 = true := by
  refine ⟨rfl, rfl, rfl, rfl, rfl, rfl⟩

/-- Errors returned by `routine.ManOnlineUnlockFS`, one per return site. -/
inductive ManErr where
  | noEncryptedFS
  | rpcFailed
  | someFsFailed
deriving Repr, DecidableEq

/-- `routine.ManOnlineUnlockFS` after device collection: `reqUUIDs` are the
UUIDs of the discovered locked LUKS devices; `rpc` is the result of the
`ManualRetrieveKey` RPC (`none` on RPC error, otherwise the granted records
and the missing UUIDs); `envOf` gives each granted record's `UnlockFS`
environment.  As in the source, every `UnlockFS` return value is discarded,
and `hasErr` is initialised to `false` and never assigned afterwards. -/
def ManOnlineUnlockFS (reqUUIDs : List String)
    (rpc : Option (List Record × List String)) (envOf : Record → UnlockEnv) :
    Option ManErr :=
  if reqUUIDs = [] then some ManErr.noEncryptedFS
  else
    match rpc with
    | none => some ManErr.rpcFailed
    | some (granted, _missing) =>
      let _discarded := granted.map (fun r => UnlockFS (envOf r) r 2)
      let hasErr := false
      if hasErr = true then some ManErr.someFsFailed else none

/-- C10: whenever the `ManualRetrieveKey` RPC succeeds (and at least one
encrypted file system was found), `ManOnlineUnlockFS` returns no error, for
every choice of per-record unlock outcomes; the
`someFsFailed` branch ("Failed to process some of the encrypted file
systems") is unreachable for all inputs. -/
theorem manOnlineUnlockFS_ignores_unlock_failures (reqUUIDs : List String)
    (granted : List Record) (missing : List String) (envOf : Record → UnlockEnv) :
    (reqUUIDs ≠ [] →
      ManOnlineUnlockFS reqUUIDs (some (granted, missing)) envOf = none)
    ∧ (∀ rpc : Option (List Record × List String),
        ManOnlineUnlockFS reqUUIDs rpc envOf ≠ some ManErr.someFsFailed) := by
  constructor
  · intro hne
    simp [ManOnlineUnlockFS, hne]
  · intro rpc
    by_cases hreq : reqUUIDs = []
    · simp [ManOnlineUnlockFS, hreq]
    · cases rpc with
      | none => simp [ManOnlineUnlockFS, hreq]
      | some p =>
        obtain ⟨g, m⟩ := p
        simp [ManOnlineUnlockFS, hreq]

/-- Witness for C10: a concrete run in which `UnlockFS` fails for the single
granted record (`cryptsetup open` fails on every attempt), yet
`ManOnlineUnlockFS` reports success. -/
theorem manOnlineUnlockFS_ignores_unlock_failures_witness :
    ManOnlineUnlockFS ["u10"]
      (some ([⟨"u10", "k", "m", "", [], 0, [], false⟩], []))
      (fun _ => ⟨true, true, true, fun _ => false, fun _ => true, fun _ => true⟩) = none
    ∧ (UnlockFS ⟨true, true, true, fun _ => false, fun _ => true, fun _ => true⟩
        ⟨"u10", "k", "m", "", [], 0, [], false⟩ 2).2 = some UnlockErr.processFailed :=
  ⟨(manOnlineUnlockFS_ignores_unlock_failures ["u10"]
      [⟨"u10", "k", "m", "", [], 0, [], false⟩] []
      (fun _ => ⟨true, true, true, fun _ => false, fun _ => true, fun _ => true⟩)).1
        (by decide),
   rfl⟩

/-- `routine.AUTO_UNLOCK_RETRY_INTERVAL_SEC`: seconds slept between
auto-unlock attempts. -/
def AUTO_UNLOCK_RETRY_INTERVAL_SEC : Nat := 5

/-- `routine.REPORT_ALIVE_INTERVAL_SEC`: seconds between alive reports. -/
def REPORT_ALIVE_INTERVAL_SEC : Nat := 10

/-- The `keyserv.AutoRetrieveKeyReq` fields that `AutoOnlineUnlockFS`
populates. -/
structure AutoRetrieveKeyReq where
  Hostname : String
  UUIDs : List String
deriving Repr, DecidableEq

/-- The request `AutoOnlineUnlockFS` sends on every iteration: exactly the
one UUID it was asked to unlock. -/
def autoRetrieveReqFor (hostname uuid : String) : AutoRetrieveKeyReq :=
  { Hostname := hostname, UUIDs := [uuid] }

/-- The `AutoRetrieveKey` response, specialised to the single requested
UUID: `granted` is the lookup `resp.Granted[UUID]`, and `missing` /
`rejected` are the response's lists. -/
structure AutoRetrieveResp where
  granted : Option Record
  missing : List String
  rejected : List String
deriving Repr, DecidableEq

/-- The response value observed by the loop body: on RPC error Go leaves
`resp` as the zero value (no grant, empty lists). -/
def respOf : Option AutoRetrieveResp → AutoRetrieveResp
  | some r => r
  | none => { granted := none, missing := [], rejected := [] }

/-- Whether `err` is non-nil at the failure-reporting point of the
`AutoOnlineUnlockFS` loop body: either the RPC itself failed, or the server
rejected the request (`len(resp.Rejected) > 0` sets `err` to "MaxActive is
exceeded"). -/
def autoErrFlag (o : Option AutoRetrieveResp) : Bool :=
  o.isNone || !(respOf o).rejected.isEmpty

/-- How a terminating run of `AutoOnlineUnlockFS` ends: `unlockWith rec k`
stands for `return UnlockFS(progressOut, rec, k)` upon a grant;
`missingKey` for the immediate error when the server reports the key
missing; `deadlineExceeded` for giving up after `maxRetrySec`. -/
inductive AutoOutcome where
  | unlockWith (rec : Record) (maxAttempts : Nat)
  | missingKey
  | deadlineExceeded
deriving Repr, DecidableEq

/-- `routine.AutoOnlineUnlockFS` as a fuel-indexed loop.  `env i` is the
result of the iteration-`i` `AutoRetrieveKey` RPC (`none` = RPC error);
`now i` is `time.Now().Unix()` at the iteration-`i` deadline check; `t0` is
`begin`.  The result carries the outcome together with the total number of
RPC requests issued (one per iteration, so `i + 1` when iteration `i`
terminates a run started at iteration 0); `none` means the loop is still
retrying after `fuel` iterations (one 5-second sleep separates successive
iterations). -/
def AutoOnlineUnlockFS (env : Nat → Option AutoRetrieveResp) (now : Nat → Int)
    (t0 maxRetrySec : Int) : Nat → Nat → Option (AutoOutcome × Nat)
  | 0, _ => none
  | fuel + 1, i =>
    match env i with
    | some r =>
      match r.granted with
      | some rec => some (AutoOutcome.unlockWith rec 3, i + 1)
      | none =>
        if r.missing = [] then
          if now i > t0 + maxRetrySec then some (AutoOutcome.deadlineExceeded, i + 1)
          else AutoOnlineUnlockFS env now t0 maxRetrySec fuel (i + 1)
        else some (AutoOutcome.missingKey, i + 1)
    | none =>
      if now i > t0 + maxRetrySec then some (AutoOutcome.deadlineExceeded, i + 1)
      else AutoOnlineUnlockFS env now t0 maxRetrySec fuel (i + 1)

/-- One step of the alive-reporter loop: the `rejected` list and the error
status returned by the iteration-`i` `ReportAlive` RPC. -/
structure ReportAliveStep where
  rejected : List String
  rpcErr : Bool
deriving Repr, DecidableEq

/-- The `keyserv.ReportAliveReq` fields that `ReportAlive` populates. -/
structure ReportAliveReq where
  Hostname : String
  UUIDs : List String
deriving Repr, DecidableEq

/-- The request `ReportAlive` sends on every iteration: exactly its single
granted UUID. -/
def reportAliveReqFor (hostname uuid : String) : ReportAliveReq :=
  { Hostname := hostname, UUIDs := [uuid] }

/-- `routine.ReportAlive` as a fuel-indexed loop: iteration `i` returns
(with the teardown error) exactly when the server's `rejected` list is
non-empty; otherwise the loop sleeps 10 seconds and continues, whatever the
RPC error status was.  `some i` = the loop returned at iteration `i`;
`none` = still running after `fuel` iterations. -/
def ReportAlive (env : Nat → ReportAliveStep) : Nat → Nat → Option Nat
  | 0, _ => none
  | fuel + 1, i =>
    if (env i).rejected = [] then ReportAlive env fuel (i + 1)
    else some i

/-- Messages the loops print about their RPC attempts. -/
inductive LoopMsg where
  | failureReport
  | suppressNotice
  | successReport
deriving Repr, DecidableEq

/-- The value of `numFailures` in `ReportAlive` at the start of iteration
`i`: incremented by every failed iteration, reset to 0 by every successful
one. -/
def raNumFailures (env : Nat → ReportAliveStep) : Nat → Nat
  | 0 => 0
  | i + 1 => if (env i).rpcErr then raNumFailures env i + 1 else 0

/-- The message printed by iteration `i` of `ReportAlive` (source lines
200-213): on failure, a verbatim failure report while `numFailures < 5`, the
one-time suppression notice when `numFailures = 5`, nothing afterwards; on
success, a success report when recovering from failures. -/
def raMsgAt (env : Nat → ReportAliveStep) (i : Nat) : Option LoopMsg :=
  if (env i).rpcErr then
    if raNumFailures env i = 5 then some LoopMsg.suppressNotice
    else if raNumFailures env i < 5 then some LoopMsg.failureReport
    else none
  else
    if 0 < raNumFailures env i then some LoopMsg.successReport else none

/-- The value of `numFailures` in `AutoOnlineUnlockFS` at the start of
iteration `i`: incremented by every iteration whose `err` is non-nil, and
never reset (a grant or a missing key ends the loop). -/
def autoNumFailures (env : Nat → Option AutoRetrieveResp) : Nat → Nat
  | 0 => 0
  | i + 1 => if autoErrFlag (env i) then autoNumFailures env i + 1 else autoNumFailures env i

/-- The message printed by iteration `i` of `AutoOnlineUnlockFS` (source
lines 169-178): only failing iterations print, following the same
first-five-then-suppress policy. -/
def autoMsgAt (env : Nat → Option AutoRetrieveResp) (i : Nat) : Option LoopMsg :=
  if autoErrFlag (env i) then
    if autoNumFailures env i = 5 then some LoopMsg.suppressNotice
    else if autoNumFailures env i < 5 then some LoopMsg.failureReport
    else none
  else none

/-- C3: per-iteration control of the auto-unlock retry loop.  Each iteration
issues one `AutoRetrieve` request for the single UUID; a grant stops the
loop and returns the unlock state machine run `UnlockFS(rec, 3)`; a missing
key stops the loop immediately with an error after that one request; a
rejection or an RPC failure makes the loop give up with an error once the
current time exceeds `t0 + maxRetrySec` and otherwise retry (after the
5-second sleep `AUTO_UNLOCK_RETRY_INTERVAL_SEC`). -/
theorem autoOnlineUnlockFS_control (env : Nat → Option AutoRetrieveResp)
    (now : Nat → Int) (t0 m : Int) (fuel i : Nat) :
    AUTO_UNLOCK_RETRY_INTERVAL_SEC = 5
    ∧ (∀ h u, (autoRetrieveReqFor h u).UUIDs = [u])
    ∧ (∀ r rec, env i = some r → r.granted = some rec →
        AutoOnlineUnlockFS env now t0 m (fuel + 1) i =
          some (AutoOutcome.unlockWith rec 3, i + 1))
    ∧ (∀ r, env i = some r → r.granted = none → r.missing ≠ [] →
        AutoOnlineUnlockFS env now t0 m (fuel + 1) i =
          some (AutoOutcome.missingKey, i + 1))
    ∧ ((env i = none ∨ ∃ r, env i = some r ∧ r.granted = none ∧ r.missing = []) →
        (now i > t0 + m →
          AutoOnlineUnlockFS env now t0 m (fuel + 1) i =
            some (AutoOutcome.deadlineExceeded, i + 1))
        ∧ (¬ now i > t0 + m →
          AutoOnlineUnlockFS env now t0 m (fuel + 1) i =
            AutoOnlineUnlockFS env now t0 m fuel (i + 1))) := by
  refine ⟨rfl, fun _ _ => rfl, ?_, ?_, ?_⟩
  · intro r rec h1 h2
    simp [AutoOnlineUnlockFS, h1, h2]
  · intro r h1 h2 h3
    simp [AutoOnlineUnlockFS, h1, h2, h3]
  · intro hcase
    constructor
    · intro hnow
      rcases hcase with h1 | ⟨r, h1, h2, h3⟩
      · simp [AutoOnlineUnlockFS, h1, hnow]
      · simp [AutoOnlineUnlockFS, h1, h2, h3, hnow]
    · intro hnow
      rcases hcase with h1 | ⟨r, h1, h2, h3⟩
      · simp [AutoOnlineUnlockFS, h1, hnow]
      · simp [AutoOnlineUnlockFS, h1, h2, h3, hnow]

/-- Witness for C3: the four loop behaviours at concrete environments. -/
theorem autoOnlineUnlockFS_control_witness :
    AutoOnlineUnlockFS (fun _ => some ⟨some ⟨"u3", "k", "m", "", [], 0, [], false⟩, [], []⟩)
      (fun _ => 0) 0 86400 1 0
      = some (AutoOutcome.unlockWith ⟨"u3", "k", "m", "", [], 0, [], false⟩ 3, 1)
    ∧ AutoOnlineUnlockFS (fun _ => some ⟨none, ["u3"], []⟩) (fun _ => 0) 0 86400 1 0
      = some (AutoOutcome.missingKey, 1)
    ∧ AutoOnlineUnlockFS (fun _ => some ⟨none, [], ["u3"]⟩) (fun _ => 10) 0 5 1 0
      = some (AutoOutcome.deadlineExceeded, 1)
    ∧ AutoOnlineUnlockFS (fun _ => some ⟨none, [], ["u3"]⟩) (fun _ => 10) 0 100 1 0
      = AutoOnlineUnlockFS (fun _ => some ⟨none, [], ["u3"]⟩) (fun _ => 10) 0 100 0 1 :=
  ⟨(autoOnlineUnlockFS_control
      (fun _ => some ⟨some ⟨"u3", "k", "m", "", [], 0, [], false⟩, [], []⟩)
      (fun _ => 0) 0 86400 0 0).2.2.1 _ _ rfl rfl,
   (autoOnlineUnlockFS_control (fun _ => some ⟨none, ["u3"], []⟩)
      (fun _ => 0) 0 86400 0 0).2.2.2.1 _ rfl rfl (by decide),
   ((autoOnlineUnlockFS_control (fun _ => some ⟨none, [], ["u3"]⟩)
      (fun _ => 10) 0 5 0 0).2.2.2.2 (Or.inr ⟨_, rfl, rfl, rfl⟩)).1 (by decide),
   ((autoOnlineUnlockFS_control (fun _ => some ⟨none, [], ["u3"]⟩)
      (fun _ => 10) 0 100 0 0).2.2.2.2 (Or.inr ⟨_, rfl, rfl, rfl⟩)).2 (by decide)⟩

theorem reportAlive_returns_ge (env : Nat → ReportAliveStep) :
    ∀ (fuel i j : Nat), ReportAlive env fuel i = some j → i ≤ j := by
  intro fuel
  induction fuel with
  | zero => intro i j h; simp [ReportAlive] at h
  | succ fuel ih =>
    intro i j h
    rw [ReportAlive] at h
    by_cases hr : (env i).rejected = []
    · rw [if_pos hr] at h
      have := ih (i + 1) j h
      omega
    · rw [if_neg hr] at h
      injection h with h2
      omega

theorem reportAlive_rejected_indep (env env2 : Nat → ReportAliveStep)
    (h : ∀ j, (env j).rejected = (env2 j).rejected) :
    ∀ (fuel i : Nat), ReportAlive env fuel i = ReportAlive env2 fuel i := by
  intro fuel
  induction fuel with
  | zero => intro i; rfl
  | succ fuel ih =>
    intro i
    rw [ReportAlive, ReportAlive, h i]
    by_cases hr : (env2 i).rejected = []
    · rw [if_pos hr, if_pos hr, ih]
    · rw [if_neg hr, if_neg hr]

/-- C4: the alive reporter sends one `ReportAlive` request for its single
granted UUID every 10 seconds and terminates (with the teardown error)
exactly when a response's `rejected` set is non-empty; with responses that
never reject, the loop never terminates, and RPC errors are irrelevant: the
loop's behaviour depends only on the `rejected` components of the
responses. -/
theorem reportAlive_stop_iff_rejected (env env2 : Nat → ReportAliveStep)
    (fuel i : Nat) :
    REPORT_ALIVE_INTERVAL_SEC = 10
    ∧ (∀ h u, (reportAliveReqFor h u).UUIDs = [u])
    ∧ (ReportAlive env (fuel + 1) i = some i ↔ (env i).rejected ≠ [])
    ∧ ((env i).rejected = [] →
        ReportAlive env (fuel + 1) i = ReportAlive env fuel (i + 1))
    ∧ ((∀ j, (env j).rejected = []) → ReportAlive env fuel i = none)
    ∧ ((∀ j, (env j).rejected = (env2 j).rejected) →
        ReportAlive env fuel i = ReportAlive env2 fuel i) := by
  refine ⟨rfl, fun _ _ => rfl, ?_, ?_, ?_, ?_⟩
  · constructor
    · intro h
      by_contra hr
      rw [ReportAlive, if_pos hr] at h
      have := reportAlive_returns_ge env fuel (i + 1) i h
      omega
    · intro hr
      rw [ReportAlive, if_neg hr]
  · intro hr
    rw [ReportAlive, if_pos hr]
  · intro hall
    induction fuel generalizing i with
    | zero => rfl
    | succ fuel ih => rw [ReportAlive, if_pos (hall i)]; exact ih (i + 1)
  · intro h
    exact reportAlive_rejected_indep env env2 h fuel i

/-- Witness for C4 at concrete environments: a rejecting response stops the
loop at once; a response that merely has an RPC error does not. -/
theorem reportAlive_stop_iff_rejected_witness :
    ReportAlive (fun _ => ⟨["u4"], false⟩) 1 0 = some 0
    ∧ ReportAlive (fun _ => ⟨[], true⟩) 1 0 = ReportAlive (fun _ => ⟨[], true⟩) 0 1
    ∧ ReportAlive (fun _ => ⟨[], true⟩) 3 0 = none :=
  ⟨(reportAlive_stop_iff_rejected (fun _ => ⟨["u4"], false⟩)
      (fun _ => ⟨["u4"], false⟩) 0 0).2.2.1.mpr (by decide),
   (reportAlive_stop_iff_rejected (fun _ => ⟨[], true⟩)
      (fun _ => ⟨[], true⟩) 0 0).2.2.2.1 rfl,
   (reportAlive_stop_iff_rejected (fun _ => ⟨[], true⟩)
      (fun _ => ⟨[], true⟩) 3 0).2.2.2.2.1 (fun _ => rfl)⟩

theorem raNumFailures_run (env : Nat → ReportAliveStep) (s : Nat)
    (hstart : s = 0 ∨ ∃ t, s = t + 1 ∧ (env t).rpcErr = false) :
    ∀ j : Nat, (∀ k, k < j → (env (s + k)).rpcErr = true) →
      raNumFailures env (s + j) = j := by
  intro j
  induction j with
  | zero =>
    intro _
    rcases hstart with h0 | ⟨t, ht, hf⟩
    · rw [h0]; rfl
    · rw [ht]
      simp [raNumFailures, hf]
  | succ j ih =>
    intro hrun
    have hstep : (env (s + j)).rpcErr = true := hrun j (by omega)
    have : s + (j + 1) = (s + j) + 1 := by omega
    rw [this, raNumFailures, hstep, if_pos rfl,
      ih (fun k hk => hrun k (by omega))]

theorem autoErrFlag_of_reject (o : Option AutoRetrieveResp)
    (h : o = none ∨ ∃ r, o = some r ∧ r.granted = none ∧ r.missing = [] ∧ r.rejected ≠ []) :
    autoErrFlag o = true := by
  rcases h with h1 | ⟨r, h1, _, _, h4⟩
  · rw [h1]; rfl
  · rw [h1, autoErrFlag]
    cases hr : r.rejected with
    | nil => exact absurd hr h4
    | cons a as => simp [respOf, hr]

theorem autoNumFailures_run (env : Nat → Option AutoRetrieveResp) :
    ∀ j : Nat, (∀ k, k < j → autoErrFlag (env k) = true) →
      autoNumFailures env j = j := by
  intro j
  induction j with
  | zero => intro _; rfl
  | succ j ih =>
    intro hrun
    rw [autoNumFailures, hrun j (by omega), if_pos rfl,
      ih (fun k hk => hrun k (by omega))]

/-- C7: in both client retry loops, within any run of consecutive failures
(in `ReportAlive` a run starts at iteration 0 or right after a successful
iteration, which resets the counter; in `AutoOnlineUnlockFS` every reached
iteration of a run is a failure, since granted and missing responses end
the loop and — by the response partition — every continuing response is a
rejection) the first five failures print the verbatim failure report, the
sixth prints the one-time suppression notice, and all later consecutive
failures print nothing. -/
theorem failure_report_suppression (env : Nat → ReportAliveStep)
    (aenv : Nat → Option AutoRetrieveResp) (s j : Nat) :
    ((s = 0 ∨ ∃ t, s = t + 1 ∧ (env t).rpcErr = false) →
      (∀ k, k ≤ j → (env (s + k)).rpcErr = true) →
      raMsgAt env (s + j) =
        (if j < 5 then some LoopMsg.failureReport
         else if j = 5 then some LoopMsg.suppressNotice else none))
    ∧ (∀ i, (env i).rpcErr = false → raNumFailures env (i + 1) = 0)
    ∧ ((∀ k, k < j → aenv k = none ∨
          ∃ r, aenv k = some r ∧ r.granted = none ∧ r.missing = [] ∧ r.rejected ≠ []) →
      autoErrFlag (aenv j) = true →
      autoMsgAt aenv j =
        (if j < 5 then some LoopMsg.failureReport
         else if j = 5 then some LoopMsg.suppressNotice else none)) := by
  refine ⟨?_, ?_, ?_⟩
  · intro hstart hrun
    have hn : raNumFailures env (s + j) = j :=
      raNumFailures_run env s hstart j (fun k hk => hrun k (by omega))
    rw [raMsgAt, if_pos (hrun j (by omega)), hn]
    split_ifs <;> first | rfl | omega
  · intro i hf
    simp [raNumFailures, hf]
  · intro hrun herr
    have hn : autoNumFailures aenv j = j :=
      autoNumFailures_run aenv j
        (fun k hk => autoErrFlag_of_reject (aenv k) (hrun k hk))
    rw [autoMsgAt, if_pos herr, hn]
    split_ifs <;> first | rfl | omega

/-- Witness for C7: with always-failing RPCs, the first failure prints the
failure report and the sixth (index 5) the suppression notice while the
seventh (index 6) prints nothing; a successful iteration resets the
counter. -/
theorem failure_report_suppression_witness :
    raMsgAt (fun _ => ⟨[], true⟩) 0 = some LoopMsg.failureReport
    ∧ raNumFailures (fun _ => ReportAliveStep.mk [] false) 1 = 0
    ∧ autoMsgAt (fun _ => some ⟨none, [], ["u7"]⟩) 5 = some LoopMsg.suppressNotice
    ∧ autoMsgAt (fun _ => some ⟨none, [], ["u7"]⟩) 6 = none := by
  refine ⟨?_, ?_, ?_, ?_⟩
  · have := (failure_report_suppression (fun _ => ⟨[], true⟩)
        (fun _ => none) 0 0).1 (Or.inl rfl) (fun _ _ => rfl)
    simpa using this
  · exact (failure_report_suppression (fun _ => ReportAliveStep.mk [] false)
        (fun _ => none) 0 0).2.1 0 rfl
  · have := (failure_report_suppression (fun _ => ⟨[], true⟩)
        (fun _ => some ⟨none, [], ["u7"]⟩) 0 5).2.2
        (fun k _ => Or.inr ⟨⟨none, [], ["u7"]⟩, rfl, rfl, rfl, by decide⟩) rfl
    simpa using this
  · have := (failure_report_suppression (fun _ => ⟨[], true⟩)
        (fun _ => some ⟨none, [], ["u7"]⟩) 0 6).2.2
        (fun k _ => Or.inr ⟨⟨none, [], ["u7"]⟩, rfl, rfl, rfl, by decide⟩) rfl
    simpa using this
